import Mathlib

/-!
Verification of the Nexus relationship-tracking backend.

This file gives a shallow embedding, in Lean 4, of the parts of the Nexus
backend that the specification's claims are about:

* the relational store (tables `people`, `logins`, `relationships` from
  `database_code/setupFiles/createDatabase.py`), modelled as lists of rows;
* the operations of `database_code/database_operations.py`
  (`remove_connection`, `add_connection`, `add_user`, `add_user_login`,
  `get_user_recent_tags`, `update_user_recent_tags`), modelled as pure
  state-passing functions; statements executed before a `commit()` that can
  raise are modelled with an explicit fault-injection parameter, and a
  caught exception (`rollback()`) restores the last committed state;
* the text-ingestion functions of `database_code/newContact.py`
  (`_basic_text_extraction`, `process_contact_text`,
  `generate_relationship_description`), with the OpenAI completion service
  abstracted as an explicit input describing its outcome;
* the persistence stage of the `/contacts/create` endpoint of
  `database_code/api.py` (`create_contact`).

Python string primitives (`str.strip`, `str.split`, `str.lower`,
`str.capitalize`, slicing, `join`) are embedded as executable functions on
`List Char` / `String`; case mapping is modelled for ASCII, which covers
every character the source manipulates.
-/

namespace Nexus

/-! ### Python string primitives -/

/-- Characters treated as whitespace by Python's `str.strip()` / `str.split()`
(space, tab, newline, carriage return, vertical tab, form feed). -/
def pyIsSpace (c : Char) : Bool :=
  c.toNat = 32 || c.toNat = 9 || c.toNat = 10 || c.toNat = 13 ||
  c.toNat = 11 || c.toNat = 12

/-- ASCII lowercase letter test (models Python `str.islower` on ASCII chars). -/
def isAsciiLowerC (c : Char) : Bool := 97 ≤ c.toNat && c.toNat ≤ 122

/-- ASCII uppercase letter test (models Python `ch.isupper()` on ASCII chars). -/
def isAsciiUpperC (c : Char) : Bool := 65 ≤ c.toNat && c.toNat ≤ 90

/-- ASCII letter test. -/
def isAsciiAlphaC (c : Char) : Bool := isAsciiLowerC c || isAsciiUpperC c

/-- ASCII uppercase mapping of one character (models Python `str.upper` /
the first character of `str.capitalize` for ASCII input). -/
def asciiUpperC (c : Char) : Char :=
  if isAsciiLowerC c then Char.ofNat (c.toNat - 32) else c

/-- ASCII lowercase mapping of one character (models Python `str.lower` for
ASCII input). -/
def asciiLowerC (c : Char) : Char :=
  if isAsciiUpperC c then Char.ofNat (c.toNat + 32) else c

/-- Strip characters satisfying `p` from both ends of a character list
(models Python `str.strip()` / `str.strip(chars)`). -/
def stripWhile (p : Char → Bool) (l : List Char) : List Char :=
  ((l.dropWhile p).reverse.dropWhile p).reverse

/-- Python `text.strip()`. -/
def pyStrip (s : String) : String := ⟨stripWhile pyIsSpace s.data⟩

/-- Python `text.strip(chars)` for an explicit character set. -/
def pyStripChars (chars : List Char) (s : String) : String :=
  ⟨stripWhile (fun c => chars.contains c) s.data⟩

/-- Whitespace tokenisation of a character list: maximal runs of
non-whitespace characters, in order (models Python `str.split()` with no
argument, which drops empty pieces). Written with one-character lookahead
so that it is structurally recursive and evaluates by `decide`. -/
def wsTokensL : List Char → List (List Char)
  | [] => []
  | c :: cs =>
    if pyIsSpace c then wsTokensL cs
    else
      match cs with
      | [] => [[c]]
      | d :: _ =>
        if pyIsSpace d then [c] :: wsTokensL cs
        else
          match wsTokensL cs with
          | [] => [[c]]
          | t :: ts => (c :: t) :: ts

lemma wsTokensL_cons_space (c : Char) (cs : List Char) (h : pyIsSpace c = true) :
    wsTokensL (c :: cs) = wsTokensL cs := by
  cases cs <;> simp [wsTokensL, h]

/-- When the head is not whitespace, tokenisation peels the leading
non-whitespace run off and recurses on the remainder. -/
lemma wsTokensL_cons_nonspace (cs : List Char) : ∀ c : Char, pyIsSpace c = false →
    wsTokensL (c :: cs) =
      (c :: cs.takeWhile (fun d => !pyIsSpace d)) ::
        wsTokensL (cs.dropWhile (fun d => !pyIsSpace d)) := by
  induction cs with
  | nil => intro c h; simp [wsTokensL, h]
  | cons d cs' ih =>
    intro c h
    by_cases hd : pyIsSpace d = true
    · simp [wsTokensL, h, hd]
    · have hd' : pyIsSpace d = false := by simpa using hd
      conv_lhs => rw [wsTokensL]
      simp only [h, Bool.false_eq_true, if_false, hd']
      rw [ih d hd']
      simp [List.takeWhile_cons, List.dropWhile_cons, hd']

/-- Python `text.split()` on a `String`. -/
def pySplitWs (s : String) : List String := (wsTokensL s.data).map (⟨·⟩)

/-- Split a character list at every occurrence of `sep`, keeping empty
pieces (models Python `str.split(sep)` with an explicit separator:
`"".split(",") = [""]`, `"a,,b".split(",") = ["a","","b"]`). -/
def splitSepL (sep : Char) : List Char → List (List Char)
  | [] => [[]]
  | c :: cs =>
    if c = sep then [] :: splitSepL sep cs
    else
      match splitSepL sep cs with
      | [] => [[c]]
      | t :: ts => (c :: t) :: ts

/-- Python `text.split(",")` on a `String`. -/
def pySplitComma (s : String) : List String := (splitSepL ',' s.data).map (⟨·⟩)

/-- Python `sep.join(pieces)`. -/
def pyJoin (sep : String) : List String → String
  | [] => ""
  | [s] => s
  | s :: rest => s ++ sep ++ pyJoin sep rest

/-- Python `text.lower()` (ASCII case mapping). -/
def pyLower (s : String) : String := ⟨s.data.map asciiLowerC⟩

/-- Python `text.capitalize()` for ASCII input: first character uppercased,
the rest lowercased. -/
def pyCapitalize (s : String) : String :=
  match s.data with
  | [] => ""
  | c :: cs => ⟨asciiUpperC c :: cs.map asciiLowerC⟩

/-- Python slicing `text[:n]`. -/
def pyTake (n : Nat) (s : String) : String := ⟨s.data.take n⟩

/-- Substring test: Python's `needle in hay` on strings. -/
def isSubstr (needle hay : String) : Bool :=
  decide (needle.data <:+: hay.data)

/-! ### The relational store

The three tables of `setupFiles/createDatabase.py`, as lists of rows.
Columns irrelevant to every claim (timestamps, `created_at`,
`last_viewed`, `last_login`) are omitted; `VARCHAR` length limits are not
modelled. `Option String` is a nullable text column. -/

/-- Row of the `people` table. `first_name` / `last_name` are `NOT NULL` in
the schema; they are `Option String` here because `add_user` may be handed
missing values, which the insert then rejects. -/
structure PersonRow where
  id : Nat
  first_name : Option String := none
  last_name : Option String := none
  email : Option String := none
  phone_number : Option String := none
  location : Option String := none
  university : Option String := none
  interests : Option String := none
  high_school : Option String := none
  gender : Option String := none
  ethnicity : Option String := none
  uni_major : Option String := none
  job_title : Option String := none
  current_company : Option String := none
  profile_image_url : Option String := none
  linkedin_url : Option String := none
  recent_tags : Option String := none
deriving Repr, DecidableEq

/-- Row of the `logins` table (`people_id INT NOT NULL REFERENCES people`,
`username UNIQUE`, `passkey`). Note the schema puts no UNIQUE constraint on
`people_id`. -/
structure LoginRow where
  people_id : Nat
  username : String
  passkey : String
deriving Repr, DecidableEq

/-- Row of the `relationships` table
(`UNIQUE (user_id, contact_id)`, both endpoints FK to `people`). -/
structure RelRow where
  user_id : Nat
  contact_id : Nat
  relationship_description : Option String := none
  notes : Option String := none
  tags : Option String := none
  what_they_are_working_on : Option String := none
deriving Repr, DecidableEq

/-- The whole store. -/
structure DB where
  people : List PersonRow := []
  logins : List LoginRow := []
  relationships : List RelRow := []
deriving Repr, DecidableEq

/-- SELECT of a person row by id (`get_user_by_id`). -/
def findPerson (db : DB) (pid : Nat) : Option PersonRow :=
  db.people.find? (fun p => p.id = pid)

/-- Whether a `people` row with this id exists. -/
def personPresent (db : DB) (pid : Nat) : Bool :=
  db.people.any (fun p => p.id = pid)

/-- Whether the directed edge `user_id → contact_id` exists. -/
def edgeExists (db : DB) (uid cid : Nat) : Bool :=
  db.relationships.any (fun r => r.user_id = uid && r.contact_id = cid)

/-- The `COUNT(*)` of `relationships` rows with this `contact_id` (the
check query inside `remove_connection`). -/
def incomingCount (db : DB) (cid : Nat) : Nat :=
  (db.relationships.filter (fun r => r.contact_id = cid)).length

/-- DatabaseManager.user_has_login: `COUNT(*) > 0` over `logins` rows with
this `people_id`. -/
def user_has_login (db : DB) (uid : Nat) : Bool :=
  0 < (db.logins.filter (fun l => l.people_id = uid)).length

/-- Effect of `DELETE FROM relationships WHERE user_id = u AND contact_id = c`. -/
def deleteEdge (db : DB) (uid cid : Nat) : DB :=
  { db with relationships :=
      db.relationships.filter (fun r => !(r.user_id = uid && r.contact_id = cid)) }

/-- Effect of `DELETE FROM people WHERE id = pid`, together with the
schema's `ON DELETE CASCADE` to `logins` and to `relationships` rows
referencing `pid` as either endpoint. -/
def deletePersonCascade (db : DB) (pid : Nat) : DB :=
  { people := db.people.filter (fun p => !(p.id = pid))
    logins := db.logins.filter (fun l => !(l.people_id = pid))
    relationships :=
      db.relationships.filter (fun r => !(r.user_id = pid || r.contact_id = pid)) }

/-! ### remove_connection (RelationshipGraph.removeEdge)

`database_operations.py`, lines 448-502.  The source deletes the edge and
immediately calls `self.connection.commit()`; only then does it run the
orphan check and, when the contact has no login and no remaining incoming
edge, delete the contact's person row (followed by a second `commit()`).
Any exception inside the `try` block triggers `rollback()` — which can
undo only statements executed after the last commit — and returns `False`.

`RemoveFault` injects an exception at each of the two DELETE statements to
model a failing store; `RemoveFault.clean` is the normal run. -/

inductive RemoveFault where
  | clean
  | atEdgeDelete
  | atPersonDelete
deriving Repr, DecidableEq

/-- One run of `remove_connection user_id contact_id`, returning the state
the store is left in (committed data) and the function's Boolean result. -/
def remove_connection_run (db : DB) (uid cid : Nat) (fault : RemoveFault) :
    DB × Bool :=
  match fault with
  | .atEdgeDelete =>
    -- the edge DELETE raises before the first commit: rollback to `db`
    (db, false)
  | f =>
    -- edge DELETE executed and committed
    let db1 := deleteEdge db uid cid
    if !user_has_login db1 cid && incomingCount db1 cid = 0 then
      match f with
      | .atPersonDelete =>
        -- the person DELETE raises before the second commit: rollback
        -- restores the state committed after the edge DELETE
        (db1, false)
      | _ => (deletePersonCascade db1 cid, true)
    else (db1, true)

/-- remove_connection on a healthy store. -/
def remove_connection (db : DB) (uid cid : Nat) : DB × Bool :=
  remove_connection_run db uid cid .clean

/-- Unfolding of the clean run of remove_connection. -/
lemma remove_connection_eq (db : DB) (uid cid : Nat) :
    remove_connection db uid cid =
      (if !user_has_login (deleteEdge db uid cid) cid &&
          incomingCount (deleteEdge db uid cid) cid = 0 then
        (deletePersonCascade (deleteEdge db uid cid) cid, true)
      else (deleteEdge db uid cid, true)) := rfl

/-- After deleting the edge uid→cid, no edge uid→cid remains. -/
lemma edgeExists_deleteEdge (db : DB) (uid cid : Nat) :
    edgeExists (deleteEdge db uid cid) uid cid = false := by
  simp [edgeExists, deleteEdge, List.any_eq_false]
  tauto

/-- Cascade deletion of a person removes their `people` row. -/
lemma personPresent_deletePersonCascade (db : DB) (pid : Nat) :
    personPresent (deletePersonCascade db pid) pid = false := by
  simp [personPresent, deletePersonCascade, List.any_eq_false]

/-- Cascade deletion of a person removes every edge pointing at them. -/
lemma edgeExists_deletePersonCascade (db : DB) (uid pid : Nat) :
    edgeExists (deletePersonCascade db pid) uid pid = false := by
  simp [edgeExists, deletePersonCascade, List.any_eq_false]
  tauto

/-- C1. A successful removeEdge(owner, contact) deletes the directed edge
owner→contact, and afterwards deletes the contact's Person row if and only
if the contact has no credential and zero remaining incoming edges; in
particular a contact that has a credential, or that is still referenced as
contact by some other owner, is not deleted
(`remove_connection`, database_operations.py lines 448-502). -/
theorem C1_remove_connection_orphan_gc (db : DB) (uid cid : Nat)
    (hp : personPresent db cid = true) :
    (remove_connection db uid cid).2 = true ∧
    edgeExists (remove_connection db uid cid).1 uid cid = false ∧
    (personPresent (remove_connection db uid cid).1 cid = false ↔
      (user_has_login db cid = false ∧
       incomingCount (deleteEdge db uid cid) cid = 0)) := by
  have hlog : user_has_login (deleteEdge db uid cid) cid = user_has_login db cid := rfl
  rw [remove_connection_eq]
  by_cases h : (!user_has_login (deleteEdge db uid cid) cid &&
      decide (incomingCount (deleteEdge db uid cid) cid = 0)) = true
  · rw [if_pos h]
    simp only [Bool.and_eq_true, Bool.not_eq_true', decide_eq_true_eq, hlog] at h
    refine ⟨rfl, edgeExists_deletePersonCascade _ uid cid, ?_⟩
    simp [personPresent_deletePersonCascade, h.1, h.2]
  · rw [if_neg h]
    simp only [Bool.and_eq_true, Bool.not_eq_true', decide_eq_true_eq, hlog] at h
    refine ⟨rfl, edgeExists_deleteEdge db uid cid, ?_⟩
    have hpe : personPresent (deleteEdge db uid cid) cid = personPresent db cid := rfl
    rw [hpe, hp]
    constructor
    · intro hfalse; exact absurd hfalse (by simp)
    · intro hcond; exact absurd hcond h

/-- Concrete store for the C1 witness: persons 1 and 2, one edge 1→2,
no credentials. -/
def dbC1 : DB :=
  { people := [{ id := 1 }, { id := 2 }]
    logins := []
    relationships := [{ user_id := 1, contact_id := 2 }] }

/-- Witness for C1 at a concrete store: removing the only edge 1→2 deletes
contact 2, which has no credential and no other incoming edge. -/
theorem C1_remove_connection_orphan_gc_witness :
    personPresent dbC1 2 = true ∧
    ((remove_connection dbC1 1 2).2 = true ∧
     edgeExists (remove_connection dbC1 1 2).1 1 2 = false ∧
     (personPresent (remove_connection dbC1 1 2).1 2 = false ↔
       (user_has_login dbC1 2 = false ∧
        incomingCount (deleteEdge dbC1 1 2) 2 = 0))) :=
  ⟨by decide, C1_remove_connection_orphan_gc dbC1 1 2 (by decide)⟩

/-- Concrete store for the C5 counterexample: persons 1 and 2, one edge
1→2, no credentials (so orphan GC fires on removal). -/
def dbC5 : DB :=
  { people := [{ id := 1 }, { id := 2 }]
    logins := []
    relationships := [{ user_id := 1, contact_id := 2 }] }

/-- Counterexample to C5: when the orphan-GC DELETE raises, the operation
reports failure, yet the store is NOT left exactly as before the call —
the edge deletion was already committed (database_operations.py line 469
commits before the orphan check). -/
theorem C5_counterexample :
    (remove_connection_run dbC5 1 2 .atPersonDelete).2 = false ∧
    (remove_connection_run dbC5 1 2 .atPersonDelete).1 ≠ dbC5 ∧
    edgeExists (remove_connection_run dbC5 1 2 .atPersonDelete).1 1 2 = false ∧
    personPresent (remove_connection_run dbC5 1 2 .atPersonDelete).1 2 = true := by
  decide

/-- C5 amended. removeEdge is NOT one transaction: the edge DELETE is
committed on its own before orphan GC runs. A failure at the edge DELETE
itself rolls everything back, but a failure during orphan GC rolls back
only the GC write: the edge stays deleted (and the contact row stays),
and the call returns failure exactly when the GC condition had fired. -/
theorem C5_remove_connection_gc_not_atomic (db : DB) (uid cid : Nat) :
    remove_connection_run db uid cid .atEdgeDelete = (db, false) ∧
    (remove_connection_run db uid cid .atPersonDelete).1 = deleteEdge db uid cid ∧
    ((remove_connection_run db uid cid .atPersonDelete).2 = false ↔
      (user_has_login db cid = false ∧
       incomingCount (deleteEdge db uid cid) cid = 0)) := by
  have heq : remove_connection_run db uid cid .atPersonDelete =
      (if !user_has_login (deleteEdge db uid cid) cid &&
          incomingCount (deleteEdge db uid cid) cid = 0 then
        (deleteEdge db uid cid, false)
      else (deleteEdge db uid cid, true)) := rfl
  refine ⟨rfl, ?_, ?_⟩
  · rw [heq]
    by_cases h : (!user_has_login (deleteEdge db uid cid) cid &&
        decide (incomingCount (deleteEdge db uid cid) cid = 0)) = true
    · rw [if_pos h]
    · rw [if_neg h]
  · rw [heq]
    by_cases h : (!user_has_login (deleteEdge db uid cid) cid &&
        decide (incomingCount (deleteEdge db uid cid) cid = 0)) = true
    · rw [if_pos h]
      simp only [Bool.and_eq_true, Bool.not_eq_true', decide_eq_true_eq] at h
      simpa using h
    · rw [if_neg h]
      simp only [Bool.and_eq_true, Bool.not_eq_true', decide_eq_true_eq] at h
      simpa using h

/-! ### TagRecencyCache (get_user_recent_tags / update_user_recent_tags)

`database_operations.py`, lines 585-666, and the constants of `config.py`. -/

/-- config.DEFAULT_TAGS. -/
def DEFAULT_TAGS : String := "family,friend,work,school,neighbor,event"

/-- config.MAX_RECENT_TAGS. -/
def MAX_RECENT_TAGS : Nat := 10

/-- get_user_recent_tags: read the `recent_tags` column and split on commas;
a missing person, a NULL column, or an empty string give the empty list. -/
def get_user_recent_tags (db : DB) (uid : Nat) : List String :=
  match findPerson db uid with
  | none => []
  | some p =>
    match p.recent_tags with
    | some s => if s ≠ "" then pySplitComma s else []
    | none => []

/-- Effect of `UPDATE people SET recent_tags = v WHERE id = uid`. -/
def setRecentTags (db : DB) (uid : Nat) (v : Option String) : DB :=
  { db with people :=
      db.people.map (fun p => if p.id = uid then { p with recent_tags := v } else p) }

/-- One step of the tag-accumulation loops of update_user_recent_tags:
`if tag and tag not in updated_tags: updated_tags.append(tag)`. -/
def addUniqueTag (acc : List String) (t : String) : List String :=
  if t ≠ "" ∧ t ∉ acc then acc ++ [t] else acc

/-- update_user_recent_tags: dedup the new tags (skipping falsy ones), then
the current ones, truncate to max_tags, store comma-joined (empty → NULL);
the Boolean result is `rowcount > 0`, i.e. whether the person row exists. -/
def update_user_recent_tags (db : DB) (uid : Nat) (new_tags : List String)
    (max_tags : Nat) : DB × Bool :=
  let current := get_user_recent_tags db uid
  let updated := new_tags.foldl addUniqueTag []
  let updated := current.foldl addUniqueTag updated
  let updated := updated.take max_tags
  let tags_string : Option String :=
    if updated = [] then none else some (pyJoin "," updated)
  if personPresent db uid then (setRecentTags db uid tags_string, true)
  else (db, false)

/-- The serialized `recent_tags` column of one person. -/
def recentTagsStored (db : DB) (uid : Nat) : Option String :=
  (findPerson db uid).bind (fun p => p.recent_tags)

/-- First-occurrence-order deduplication with an explicit set of entries
already seen: keep each entry's first occurrence, drop later duplicates. -/
def firstDedupAux (seen : List String) : List String → List String
  | [] => []
  | t :: ts =>
    if t ∈ seen then firstDedupAux seen ts
    else t :: firstDedupAux (t :: seen) ts

/-- First-occurrence-order deduplication, exactly as claim C2 words it. -/
def firstDedup (l : List String) : List String := firstDedupAux [] l

/-- The list claim C2 says update stores: dedup of newTags in
first-occurrence order, then the previously stored tags not already
present, truncated — i.e. first-occurrence dedup of new ++ current,
truncated. -/
def claimRecentTags (current new : List String) (maxTags : Nat) : List String :=
  (firstDedup (new ++ current)).take maxTags

/-- The amended list: identical, except that empty-string entries are
dropped before deduplication. -/
def claimRecentTagsNE (current new : List String) (maxTags : Nat) : List String :=
  (firstDedup ((new ++ current).filter (fun t => t ≠ ""))).take maxTags

/-- firstDedupAux only depends on the membership of `seen`. -/
lemma firstDedupAux_congr : ∀ (l s₁ s₂ : List String),
    (∀ x, x ∈ s₁ ↔ x ∈ s₂) → firstDedupAux s₁ l = firstDedupAux s₂ l
  | [], _, _, _ => rfl
  | t :: ts, s₁, s₂, h => by
    simp only [firstDedupAux]
    by_cases ht : t ∈ s₁
    · rw [if_pos ht, if_pos ((h t).mp ht)]
      exact firstDedupAux_congr ts s₁ s₂ h
    · rw [if_neg ht, if_neg (fun hc => ht ((h t).mpr hc))]
      refine congrArg _ (firstDedupAux_congr ts (t :: s₁) (t :: s₂) ?_)
      intro x
      simp [h x]

lemma mem_firstDedupAux : ∀ (l seen : List String) (x : String),
    x ∈ firstDedupAux seen l → x ∈ l ∧ x ∉ seen
  | [], _, _, h => by simp [firstDedupAux] at h
  | t :: ts, seen, x, h => by
    simp only [firstDedupAux] at h
    by_cases ht : t ∈ seen
    · rw [if_pos ht] at h
      have := mem_firstDedupAux ts seen x h
      exact ⟨List.mem_cons_of_mem _ this.1, this.2⟩
    · rw [if_neg ht] at h
      rcases List.mem_cons.mp h with rfl | h
      · exact ⟨List.mem_cons_self _ _, ht⟩
      · have := mem_firstDedupAux ts (t :: seen) x h
        exact ⟨List.mem_cons_of_mem _ this.1,
          fun hc => this.2 (List.mem_cons_of_mem _ hc)⟩

lemma firstDedupAux_nodup : ∀ (l seen : List String), (firstDedupAux seen l).Nodup
  | [], _ => List.nodup_nil
  | t :: ts, seen => by
    simp only [firstDedupAux]
    by_cases ht : t ∈ seen
    · rw [if_pos ht]; exact firstDedupAux_nodup ts seen
    · rw [if_neg ht]
      refine List.nodup_cons.mpr ⟨?_, firstDedupAux_nodup ts (t :: seen)⟩
      intro hc
      exact (mem_firstDedupAux ts (t :: seen) t hc).2 (List.mem_cons_self _ _)

/-- The result of claim C2's dedup has no duplicates. -/
lemma firstDedup_nodup (l : List String) : (firstDedup l).Nodup :=
  firstDedupAux_nodup l []

/-- Folding addUniqueTag extends the accumulator with the first-occurrence
dedup of the non-empty elements, the accumulator counting as seen. -/
lemma foldl_addUniqueTag : ∀ (l acc : List String),
    l.foldl addUniqueTag acc =
      acc ++ firstDedupAux acc (l.filter (fun t => t ≠ ""))
  | [], acc => by simp [firstDedupAux]
  | t :: ts, acc => by
    simp only [List.foldl_cons, addUniqueTag]
    by_cases he : t = ""
    · rw [if_neg (by simp [he])]
      rw [foldl_addUniqueTag ts acc]
      simp [List.filter_cons, he]
    · by_cases hm : t ∈ acc
      · rw [if_neg (by simp [hm])]
        rw [foldl_addUniqueTag ts acc]
        have : ((t :: ts).filter (fun t => t ≠ "")) =
            t :: ts.filter (fun t => t ≠ "") := by simp [List.filter_cons, he]
        rw [this]
        simp [firstDedupAux, hm]
      · rw [if_pos ⟨he, hm⟩]
        rw [foldl_addUniqueTag ts (acc ++ [t])]
        have : ((t :: ts).filter (fun t => t ≠ "")) =
            t :: ts.filter (fun t => t ≠ "") := by simp [List.filter_cons, he]
        rw [this]
        simp only [firstDedupAux, hm, if_false, List.append_assoc, List.cons_append,
          List.nil_append]
        refine congrArg _ (congrArg _ ?_)
        refine firstDedupAux_congr _ _ _ ?_
        intro x
        simp [List.mem_append, or_comm]

/-- The UPDATE touches only the targeted person's `recent_tags` column. -/
lemma findPerson_setRecentTags (db : DB) (uid : Nat) (v : Option String) :
    findPerson (setRecentTags db uid v) uid =
      (findPerson db uid).map (fun p => { p with recent_tags := v }) := by
  simp only [findPerson, setRecentTags]
  induction db.people with
  | nil => rfl
  | cons p ps ih =>
    by_cases h : p.id = uid
    · simp [List.find?_cons, h]
    · simp [List.find?_cons, h, ih]

/-- A person row exists exactly when findPerson finds one. -/
lemma findPerson_of_present (db : DB) (uid : Nat)
    (hp : personPresent db uid = true) : ∃ p, findPerson db uid = some p := by
  simp only [personPresent, List.any_eq_true, decide_eq_true_eq] at hp
  obtain ⟨p, hmem, hid⟩ := hp
  have h : (db.people.find? (fun p => p.id = uid)).isSome :=
    List.find?_isSome.mpr ⟨p, hmem, by simp [hid]⟩
  exact Option.isSome_iff_exists.mp h

/-- Writing the `recent_tags` column of an existing person stores exactly
that value. -/
lemma recentTagsStored_setRecentTags (db : DB) (uid : Nat) (v : Option String)
    (hp : personPresent db uid = true) :
    recentTagsStored (setRecentTags db uid v) uid = v := by
  obtain ⟨p, hfp⟩ := findPerson_of_present db uid hp
  simp [recentTagsStored, findPerson_setRecentTags, hfp]

/-- Concrete store for the C2 counterexample: person 1 currently has the
single recent tag "a". -/
def dbC2 : DB := { people := [{ id := 1, recent_tags := some "a" }] }

/-- Counterexample to C2 as stated: updating with newTags = [""] must,
per the claim, store the dedup of [""] followed by the old tags, i.e.
["", "a"] — but the code filters out falsy tags and stores just "a". -/
theorem C2_counterexample :
    claimRecentTags (get_user_recent_tags dbC2 1) [""] 10 = ["", "a"] ∧
    get_user_recent_tags ((update_user_recent_tags dbC2 1 [""] 10).1) 1 = ["a"] ∧
    get_user_recent_tags ((update_user_recent_tags dbC2 1 [""] 10).1) 1 ≠
      claimRecentTags (get_user_recent_tags dbC2 1) [""] 10 := by
  decide

/-- C2 amended. After update(personId, newTags) on an existing person, the
serialized tag list equals the dedup of the NON-EMPTY entries of newTags
in first-occurrence order, followed by the previously stored non-empty
tags not already present, truncated to max_tags, comma-joined (stored as
NULL when that list is empty); the list is unique and at most max_tags
long (`update_user_recent_tags`, database_operations.py lines 612-666). -/
theorem C2_update_recent_tags_amended (db : DB) (uid : Nat)
    (new_tags : List String) (max_tags : Nat)
    (hp : personPresent db uid = true) :
    (update_user_recent_tags db uid new_tags max_tags).2 = true ∧
    recentTagsStored (update_user_recent_tags db uid new_tags max_tags).1 uid =
      (if claimRecentTagsNE (get_user_recent_tags db uid) new_tags max_tags = []
       then none
       else some (pyJoin ","
         (claimRecentTagsNE (get_user_recent_tags db uid) new_tags max_tags))) ∧
    (claimRecentTagsNE (get_user_recent_tags db uid) new_tags max_tags).Nodup ∧
    (claimRecentTagsNE (get_user_recent_tags db uid) new_tags max_tags).length ≤
      max_tags := by
  have hkey : ((get_user_recent_tags db uid).foldl addUniqueTag
        (new_tags.foldl addUniqueTag [])).take max_tags =
      claimRecentTagsNE (get_user_recent_tags db uid) new_tags max_tags := by
    rw [← List.foldl_append, foldl_addUniqueTag]
    simp only [List.nil_append, claimRecentTagsNE, firstDedup]
  refine ⟨by simp [update_user_recent_tags, hp], ?_, ?_, ?_⟩
  · simp only [update_user_recent_tags, hp, if_true]
    rw [hkey, recentTagsStored_setRecentTags db uid _ hp]
  · exact List.Nodup.sublist (List.take_sublist _ _) (firstDedup_nodup _)
  · exact List.length_take_le _ _

/-- Concrete store for the C2 witness, realising the claim's own example:
person 1 has recent tags "a,b,c" and MAX_RECENT_TAGS is taken as 3. -/
def dbC2w : DB := { people := [{ id := 1, recent_tags := some "a,b,c" }] }

/-- Witness for the amended C2 at the claim's example: updating ["d"] over
["a","b","c"] with bound 3 stores "d,a,b". -/
theorem C2_update_recent_tags_amended_witness :
    personPresent dbC2w 1 = true ∧
    ((update_user_recent_tags dbC2w 1 ["d"] 3).2 = true ∧
     recentTagsStored (update_user_recent_tags dbC2w 1 ["d"] 3).1 1 =
       (if claimRecentTagsNE (get_user_recent_tags dbC2w 1) ["d"] 3 = []
        then none
        else some (pyJoin ","
          (claimRecentTagsNE (get_user_recent_tags dbC2w 1) ["d"] 3))) ∧
     (claimRecentTagsNE (get_user_recent_tags dbC2w 1) ["d"] 3).Nodup ∧
     (claimRecentTagsNE (get_user_recent_tags dbC2w 1) ["d"] 3).length ≤ 3) ∧
    recentTagsStored (update_user_recent_tags dbC2w 1 ["d"] 3).1 1 =
      some "d,a,b" :=
  ⟨by decide, C2_update_recent_tags_amended dbC2w 1 ["d"] 3 (by decide), by decide⟩

/-! ### add_user_login (CredentialStore.add) and add_user (PersonStore.create)

`database_operations.py`, lines 670-694 and 267-328, against the schema of
`setupFiles/createDatabase.py`: `logins.username` is UNIQUE and
`logins.people_id` is a NOT NULL foreign key — there is NO uniqueness
constraint on `people_id`.  `people.first_name` / `people.last_name` are
`NOT NULL` (the empty string satisfies NOT NULL). -/

/-- Whether some login row already uses this username (the UNIQUE
constraint on `logins.username`). -/
def usernameTaken (db : DB) (un : String) : Bool :=
  db.logins.any (fun l => l.username = un)

/-- add_user_login: INSERT INTO logins. The insert raises — and the
function catches, rolls back and returns False — exactly when a
constraint is violated: duplicate username, or a `people_id` that
references no person. Nothing restricts how many logins one person has. -/
def add_user_login (db : DB) (user_id : Nat) (username passkey : String) :
    DB × Bool :=
  if usernameTaken db username || !personPresent db user_id then (db, false)
  else
    ({ db with logins := db.logins ++
        [{ people_id := user_id, username := username, passkey := passkey }] },
     true)

/-- The dict handed to add_user: the 15 profile columns of the INSERT plus
`recent_tags`, and the `username` / `password` keys popped off before the
INSERT (absent dict keys and JSON nulls are both `none`). -/
structure NewUserFields where
  first_name : Option String := none
  last_name : Option String := none
  email : Option String := none
  phone_number : Option String := none
  location : Option String := none
  university : Option String := none
  interests : Option String := none
  high_school : Option String := none
  gender : Option String := none
  ethnicity : Option String := none
  uni_major : Option String := none
  job_title : Option String := none
  current_company : Option String := none
  profile_image_url : Option String := none
  linkedin_url : Option String := none
  recent_tags : Option String := none
  username : Option String := none
  password : Option String := none
deriving Repr, DecidableEq

/-- The fresh SERIAL id the INSERT's `RETURNING id` yields: larger than
every existing id. -/
def freshId (db : DB) : Nat := (db.people.map (fun p => p.id)).foldr max 0 + 1

/-- add_user: pop username/password, default `recent_tags` to DEFAULT_TAGS
when missing/NULL, set every absent column to NULL, INSERT.  A NULL
`first_name` or `last_name` violates the schema's NOT NULL, so the insert
raises, the transaction rolls back and the exception propagates (modelled
as result `none` with the store unchanged).  The empty string is a
perfectly valid NOT NULL value, so it is inserted.  On success, a login is
added when both username and password were provided and truthy. -/
def add_user (db : DB) (u : NewUserFields) : DB × Option Nat :=
  if u.first_name = none || u.last_name = none then (db, none)
  else
    let uid := freshId db
    let row : PersonRow :=
      { id := uid
        first_name := u.first_name
        last_name := u.last_name
        email := u.email
        phone_number := u.phone_number
        location := u.location
        university := u.university
        interests := u.interests
        high_school := u.high_school
        gender := u.gender
        ethnicity := u.ethnicity
        uni_major := u.uni_major
        job_title := u.job_title
        current_company := u.current_company
        profile_image_url := u.profile_image_url
        linkedin_url := u.linkedin_url
        recent_tags := some (u.recent_tags.getD DEFAULT_TAGS) }
    let db1 : DB := { db with people := db.people ++ [row] }
    let db2 : DB :=
      match u.username, u.password with
      | some un, some pw =>
        if un ≠ "" ∧ pw ≠ "" then (add_user_login db1 uid un pw).1 else db1
      | _, _ => db1
    (db2, some uid)

/-- Every element of a Nat list is bounded by its foldr-max. -/
lemma le_foldr_max : ∀ (l : List Nat) (a : Nat), a ∈ l → a ≤ l.foldr max 0
  | b :: bs, a, h => by
    rcases List.mem_cons.mp h with rfl | h
    · exact le_max_left _ _
    · exact le_trans (le_foldr_max bs a h) (le_max_right _ _)

/-- The fresh id is not an existing person's id. -/
lemma freshId_not_present (db : DB) : personPresent db (freshId db) = false := by
  simp only [personPresent, List.any_eq_false, decide_eq_true_eq]
  intro p hp hc
  have := le_foldr_max (db.people.map (fun p => p.id)) p.id
    (List.mem_map_of_mem _ hp)
  simp only [freshId] at hc
  omega

/-- add_user_login never touches the `people` table. -/
lemma people_add_user_login (db : DB) (uid : Nat) (un pw : String) :
    (add_user_login db uid un pw).1.people = db.people := by
  unfold add_user_login
  split <;> rfl

/-- find? over a list that misses the target, extended with the target's
row, yields that row. -/
lemma find?_append_target : ∀ (qs : List PersonRow) (row : PersonRow),
    (∀ q ∈ qs, q.id ≠ row.id) →
    List.find? (fun q => q.id = row.id) (qs ++ [row]) = some row
  | [], row, _ => by simp [List.find?]
  | q :: qs, row, h => by
    have hq : (decide (q.id = row.id)) = false := by
      simp [h q (List.mem_cons_self q qs)]
    simp only [List.cons_append, List.find?_cons, hq]
    exact find?_append_target qs row (fun x hx => h x (List.mem_cons_of_mem _ hx))

/-- Looking up the row just appended for a fresh id finds exactly it. -/
lemma findPerson_append_fresh (db : DB) (row : PersonRow)
    (h : row.id = freshId db) :
    findPerson { db with people := db.people ++ [row] } row.id = some row := by
  have hfresh := freshId_not_present db
  simp only [personPresent, List.any_eq_false, decide_eq_true_eq] at hfresh
  simp only [findPerson]
  exact find?_append_target db.people row (fun q hq hc => hfresh q hq (hc.trans h))

/-- Store for the C8 counterexample: empty. -/
def dbC8 : DB := {}

/-- Fields for the C8 counterexample: an empty-string first name. -/
def c8fields : NewUserFields := { first_name := some "", last_name := some "Smith" }

/-- Counterexample to C8: create with first_name = "" does NOT fail — the
empty string satisfies the schema's NOT NULL, no other validation exists,
and a Person row with an empty first name is created. -/
theorem C8_counterexample :
    (add_user dbC8 c8fields).2 = some 1 ∧
    personPresent (add_user dbC8 c8fields).1 1 = true ∧
    (findPerson (add_user dbC8 c8fields).1 1).map (fun p => p.first_name) =
      some (some "") := by
  decide

/-- C8 amended. PersonStore.create fails (raising, with no row created)
exactly when first_name or last_name is absent or null; an empty-string
name is accepted and stored as given (`add_user`, database_operations.py
lines 267-328, against the NOT NULL columns of createDatabase.py). -/
theorem C8_add_user_requires_names (db : DB) (u : NewUserFields) :
    ((add_user db u).2 = none ↔ (u.first_name = none ∨ u.last_name = none)) ∧
    ((add_user db u).2 = none → (add_user db u).1 = db) ∧
    (∀ nid, (add_user db u).2 = some nid →
      personPresent (add_user db u).1 nid = true ∧
      (findPerson (add_user db u).1 nid).map (fun p => p.first_name) =
        some u.first_name ∧
      (findPerson (add_user db u).1 nid).map (fun p => p.last_name) =
        some u.last_name) := by
  by_cases h : (u.first_name = none || u.last_name = none) = true
  · have heq : add_user db u = (db, none) := by
      unfold add_user; rw [if_pos h]
    rw [heq]
    simp only [Bool.or_eq_true, decide_eq_true_eq] at h
    exact ⟨by simpa using h, fun _ => rfl, fun nid hc => by simp at hc⟩
  · have hff : (u.first_name = none || u.last_name = none) = false := by
      simpa using h
    simp only [Bool.or_eq_true, decide_eq_true_eq] at h
    push_neg at h
    -- the inserted row
    set row : PersonRow :=
      { id := freshId db
        first_name := u.first_name
        last_name := u.last_name
        email := u.email
        phone_number := u.phone_number
        location := u.location
        university := u.university
        interests := u.interests
        high_school := u.high_school
        gender := u.gender
        ethnicity := u.ethnicity
        uni_major := u.uni_major
        job_title := u.job_title
        current_company := u.current_company
        profile_image_url := u.profile_image_url
        linkedin_url := u.linkedin_url
        recent_tags := some (u.recent_tags.getD DEFAULT_TAGS) } with hrow
    have hsnd : (add_user db u).2 = some (freshId db) := by
      unfold add_user; rw [if_neg (by simp [hff])]
    have hpeople : (add_user db u).1.people = db.people ++ [row] := by
      unfold add_user
      rw [if_neg (by simp [hff])]
      simp only
      rcases hu : u.username with _ | un <;> rcases hp : u.password with _ | pw <;>
        simp only [people_add_user_login]
      split
      · rw [people_add_user_login]
      · rfl
    have hfind : findPerson (add_user db u).1 (freshId db) = some row := by
      have hid : row.id = freshId db := rfl
      have := findPerson_append_fresh db row hid
      simp only [findPerson] at this ⊢
      rw [hpeople, ← hid]
      simpa [findPerson] using this
    refine ⟨?_, ?_, ?_⟩
    · rw [hsnd]
      simp [h.1, h.2]
    · rw [hsnd]; intro hc; simp at hc
    · intro nid hnid
      rw [hsnd] at hnid
      obtain rfl : freshId db = nid := by simpa using hnid
      refine ⟨?_, ?_, ?_⟩
      · simp only [personPresent, List.any_eq_true, decide_eq_true_eq]
        refine ⟨row, ?_, rfl⟩
        rw [show (add_user db u).1.people = db.people ++ [row] from hpeople]
        simp
      · rw [hfind]; rfl
      · rw [hfind]; rfl

/-- Witness for C8 amended at concrete inputs: a missing last name is
refused and nothing is inserted. -/
theorem C8_add_user_requires_names_witness :
    ((add_user dbC8 { first_name := some "John" }).2 = none ↔
      (({ first_name := some "John" } : NewUserFields).first_name = none ∨
       ({ first_name := some "John" } : NewUserFields).last_name = none)) ∧
    ((add_user dbC8 { first_name := some "John" }).2 = none →
      (add_user dbC8 { first_name := some "John" }).1 = dbC8) ∧
    (∀ nid, (add_user dbC8 { first_name := some "John" }).2 = some nid →
      personPresent (add_user dbC8 { first_name := some "John" }).1 nid = true ∧
      (findPerson (add_user dbC8 { first_name := some "John" }).1 nid).map
        (fun p => p.first_name) =
        some ({ first_name := some "John" } : NewUserFields).first_name ∧
      (findPerson (add_user dbC8 { first_name := some "John" }).1 nid).map
        (fun p => p.last_name) =
        some ({ first_name := some "John" } : NewUserFields).last_name) :=
  C8_add_user_requires_names dbC8 { first_name := some "John" }

/-- Store for the C9 counterexample: one person, no credentials yet. -/
def dbC9 : DB :=
  { people := [{ id := 1, first_name := some "A", last_name := some "B" }] }

/-- Counterexample to C9: adding a second credential for person 1 under a
fresh username succeeds — `logins` has no UNIQUE constraint on
`people_id` and `add_user_login` performs no such check — leaving person 1
with two credential rows. -/
theorem C9_counterexample :
    (add_user_login dbC9 1 "u1" "p").2 = true ∧
    (add_user_login (add_user_login dbC9 1 "u1" "p").1 1 "u2" "p").2 = true ∧
    ((add_user_login (add_user_login dbC9 1 "u1" "p").1 1 "u2" "p").1.logins.filter
      (fun l => l.people_id = 1)).length = 2 := by
  decide

/-- C9 amended. CredentialStore.add fails (with the store unchanged)
exactly when the username is already taken or the person id resolves to no
person; a second credential for a person who already has one, under a
fresh username, is accepted (`add_user_login`, database_operations.py
lines 670-694, against the `logins` table of createDatabase.py, which has
UNIQUE on `username` only). -/
theorem C9_add_user_login_conflicts (db : DB) (uid : Nat) (un pw : String) :
    ((add_user_login db uid un pw).2 = false ↔
      (usernameTaken db un = true ∨ personPresent db uid = false)) ∧
    ((add_user_login db uid un pw).2 = false → (add_user_login db uid un pw).1 = db) ∧
    ((add_user_login db uid un pw).2 = true →
      (add_user_login db uid un pw).1.logins =
        db.logins ++ [{ people_id := uid, username := un, passkey := pw }]) := by
  unfold add_user_login
  by_cases h : (usernameTaken db un || !personPresent db uid) = true
  · rw [if_pos h]
    simp only [Bool.or_eq_true, Bool.not_eq_true'] at h
    exact ⟨by simpa using h, fun _ => rfl, fun hc => by simp at hc⟩
  · rw [if_neg h]
    have h' : ¬(usernameTaken db un = true ∨ personPresent db uid = false) := by
      simpa [Bool.or_eq_true, Bool.not_eq_true'] using h
    refine ⟨⟨fun hc => absurd hc (by simp), fun hor => absurd hor h'⟩,
      fun hc => absurd hc (by simp), fun _ => rfl⟩

/-! ### newContact.py — text extraction

`process_contact_text`, `_basic_text_extraction` and
`generate_relationship_description`.  The OpenAI completion service is
abstracted as an explicit description of its outcome; everything after the
service call is translated statement by statement. -/

/-- USER_FIELDS of newContact.py (the 16 structured target fields), each
an optional string.  In the parsed service response, `none` stands for an
absent key or a JSON null and `some ""` for an empty string — the
sanitisation step then maps `some ""` to `none` as the source does. -/
structure CoreFields where
  first_name : Option String := none
  last_name : Option String := none
  email : Option String := none
  phone_number : Option String := none
  gender : Option String := none
  ethnicity : Option String := none
  birthday : Option String := none
  location : Option String := none
  high_school : Option String := none
  university : Option String := none
  uni_major : Option String := none
  job_title : Option String := none
  current_company : Option String := none
  field_of_interest : Option String := none
  profile_image_url : Option String := none
  linkedin_url : Option String := none
deriving Repr, DecidableEq

/-- The field values in USER_FIELDS order (the iteration order of the
source's loops over USER_FIELDS). -/
def coreValues (c : CoreFields) : List (Option String) :=
  [c.first_name, c.last_name, c.email, c.phone_number, c.gender,
   c.ethnicity, c.birthday, c.location, c.high_school, c.university,
   c.uni_major, c.job_title, c.current_company, c.field_of_interest,
   c.profile_image_url, c.linkedin_url]

/-- Map empty-string field values to null, as the sanitisation loop of
process_contact_text does. -/
def sanitizeField (v : Option String) : Option String :=
  match v with
  | some "" => none
  | v => v

/-- The sanitisation loop over all 16 fields. -/
def sanitizeCore (c : CoreFields) : CoreFields :=
  { first_name := sanitizeField c.first_name
    last_name := sanitizeField c.last_name
    email := sanitizeField c.email
    phone_number := sanitizeField c.phone_number
    gender := sanitizeField c.gender
    ethnicity := sanitizeField c.ethnicity
    birthday := sanitizeField c.birthday
    location := sanitizeField c.location
    high_school := sanitizeField c.high_school
    university := sanitizeField c.university
    uni_major := sanitizeField c.uni_major
    job_title := sanitizeField c.job_title
    current_company := sanitizeField c.current_company
    field_of_interest := sanitizeField c.field_of_interest
    profile_image_url := sanitizeField c.profile_image_url
    linkedin_url := sanitizeField c.linkedin_url }

/-- The extracted-contact dictionary: the 16 structured fields plus the
`note` field. -/
structure UserData where
  core : CoreFields
  note : Option String := none
deriving Repr, DecidableEq

/-- The (success, data, message) triple both extraction functions return. -/
structure ExtractResult where
  success : Bool
  data : Option UserData
  message : String
deriving Repr, DecidableEq

/-- newContact._basic_text_extraction (lines 135-166): fallback when the
completion service is unavailable or unusable. Splits on whitespace;
token 1 → first_name, token 2 → last_name, every other structured field
null; the note is the WHOLE original text when more than two tokens
remain, and the empty string otherwise. -/
def _basic_text_extraction (text : String) : ExtractResult :=
  let words := pySplitWs (pyStrip text)
  if words.length < 2 then
    { success := false, data := none
      message := "At least first and last name are required." }
  else
    { success := true
      data := some
        { core := { first_name := some (words.headD "")
                    last_name := some (words.getD 1 "") }
          note := some (if 2 < words.length then text else "") }
      message := "Basic processing only (OpenAI unavailable)." }

/-- Outcome of the completion-service interaction in process_contact_text:
the service may be unconfigured (`OPENAI_AVAILABLE`/`OPENAI_WORKING`
false), return no content, return something json.loads rejects, or return
a parsed object.  In `parsed`, the second argument is the `note` key:
`none` when absent, `some v` when present with value `v`. -/
inductive LLMService where
  | unavailable
  | noContent
  | badJSON
  | parsed (core : CoreFields) (note : Option (Option String))
deriving Repr, DecidableEq

/-- Python's punctuation set `'.,;:'` used by `word.strip('.,;:')`. -/
def wordPunct : List Char := ['.', ',', ';', ':']

/-- The note-reconstruction fallback of process_contact_text (lines
257-278), run when the parsed response has no `note` key: lower-cased
words of the input that are not substrings of any structured value are
re-joined. -/
def reconstructNote (core : CoreFields) (text : String) : String :=
  let structured_info :=
    ((coreValues core).filterMap id).filter (fun v => v ≠ "") |>.map pyLower
  let words := pySplitWs (pyLower text)
  let remaining := (words.map (fun w => pyStripChars wordPunct w)).filter
    (fun w => w ≠ "" && structured_info.all (fun info => !isSubstr w info))
  if remaining ≠ [] then pyJoin " " remaining else ""

/-- The truthiness-or-too-short test on the note (line 283). -/
def noteFalsyOrShort (n : Option String) : Bool :=
  match n with
  | none => true
  | some s => s = "" || (pyStrip s).length < 10

/-- Total length of the non-null structured values (line 285). -/
def totalStructuredLength (core : CoreFields) : Nat :=
  (((coreValues core).filterMap id).map String.length).sum

/-- Branches of process_contact_text after the length check, one per
service outcome (lines 190-294 of newContact.py): fall back to
`_basic_text_extraction` when the service is unavailable, returns no
content, or returns unparseable JSON; FAIL when the parsed response
misses first or last name; otherwise sanitise and repair the note as the
source does. -/
def processBody (text : String) : LLMService → ExtractResult
  | .unavailable => _basic_text_extraction text
  | .noContent => _basic_text_extraction text
  | .badJSON => _basic_text_extraction text
  | .parsed core noteField =>
    if core.first_name = none || core.first_name = some "" ||
        core.last_name = none || core.last_name = some "" then
      { success := false, data := none
        message := "Could not extract first and last name from the text. Please provide clearer information." }
    else
      let score := sanitizeCore core
      let note0 : Option String :=
        match noteField with
        | some n => n
        | none => some (reconstructNote score text)
      let note1 : Option String :=
        if noteFalsyOrShort note0 then
          if totalStructuredLength score + 20 < (pyStrip text).length then
            some ("Additional information: " ++ text)
          else note0
        else note0
      { success := true
        data := some { core := score, note := note1 }
        message := "Successfully extracted user information." }

/-- newContact.process_contact_text (lines 173-294): length validation,
then dispatch on the completion-service outcome. -/
def process_contact_text (text : String) (svc : LLMService) : ExtractResult :=
  if text = "" || (pyStrip text).length < 5 then
    { success := false, data := none
      message := "Not enough information provided. Please provide more details." }
  else processBody text svc

/-! ### Tokens are substrings of the input (the preservation lemmas for C4) -/

lemma mem_wsTokensL_substr : ∀ (l t : List Char), t ∈ wsTokensL l → t <:+: l
  | [], t, ht => by simp [wsTokensL] at ht
  | c :: cs, t, ht => by
    by_cases hc : pyIsSpace c = true
    · rw [wsTokensL_cons_space c cs hc] at ht
      exact List.infix_cons (mem_wsTokensL_substr cs t ht)
    · have hc' : pyIsSpace c = false := by simpa using hc
      rw [wsTokensL_cons_nonspace cs c hc'] at ht
      rcases List.mem_cons.mp ht with rfl | ht
      · obtain ⟨r, hr⟩ := List.takeWhile_prefix (l := cs) (fun d => !pyIsSpace d)
        exact List.IsPrefix.isInfix ⟨r, by simp [hr]⟩
      · exact List.infix_cons ((mem_wsTokensL_substr _ t ht).trans
          (List.dropWhile_suffix _).isInfix)
termination_by l _ _ => l.length
decreasing_by
  · simp only [List.length_cons]; omega
  · simp only [List.length_cons]
    have h := congrArg List.length
      (List.takeWhile_append_dropWhile (fun d => !pyIsSpace d) cs)
    simp only [List.length_append] at h
    omega

lemma stripWhile_infix (p : Char → Bool) (l : List Char) :
    stripWhile p l <:+: l := by
  have h1 : l.dropWhile p <:+ l := List.dropWhile_suffix p
  have h2 : (l.dropWhile p).reverse.dropWhile p <:+ (l.dropWhile p).reverse :=
    List.dropWhile_suffix p
  have h4 : ((l.dropWhile p).reverse.dropWhile p).reverse <+: l.dropWhile p := by
    rw [← List.reverse_suffix]
    simpa using h2
  exact (h4.isInfix).trans h1.isInfix

/-- Every whitespace token of the stripped text occurs verbatim in the
text. -/
lemma token_isSubstr (text w : String)
    (hw : w ∈ pySplitWs (pyStrip text)) : isSubstr w text = true := by
  simp only [pySplitWs, List.mem_map] at hw
  obtain ⟨t, ht, rfl⟩ := hw
  have h1 := mem_wsTokensL_substr _ t ht
  have h2 := stripWhile_infix pyIsSpace text.data
  simp only [isSubstr, decide_eq_true_eq]
  exact h1.trans h2

/-- C4. With the completion service unavailable, extraction fails iff the
stripped text is shorter than 5 characters or has fewer than 2 whitespace
tokens; otherwise it succeeds with token 1 as first_name, token 2 as
last_name, every other structured field null, and a note containing every
remaining token of the input verbatim (process_contact_text lines 186-193
plus _basic_text_extraction, newContact.py). -/
theorem C4_degraded_extraction (text : String) :
    ((process_contact_text text .unavailable).success = false ↔
      ((pyStrip text).length < 5 ∨ (pySplitWs (pyStrip text)).length < 2)) ∧
    ((process_contact_text text .unavailable).success = true →
      ∃ ud, (process_contact_text text .unavailable).data = some ud ∧
        ud.core.first_name = some ((pySplitWs (pyStrip text)).headD "") ∧
        ud.core.last_name = some ((pySplitWs (pyStrip text)).getD 1 "") ∧
        ud.core.email = none ∧ ud.core.phone_number = none ∧
        ud.core.gender = none ∧ ud.core.ethnicity = none ∧
        ud.core.birthday = none ∧ ud.core.location = none ∧
        ud.core.high_school = none ∧ ud.core.university = none ∧
        ud.core.uni_major = none ∧ ud.core.job_title = none ∧
        ud.core.current_company = none ∧ ud.core.field_of_interest = none ∧
        ud.core.profile_image_url = none ∧ ud.core.linkedin_url = none ∧
        ∀ w ∈ (pySplitWs (pyStrip text)).drop 2,
          isSubstr w (ud.note.getD "") = true) := by
  by_cases hshort : (pyStrip text).length < 5
  · have heq : process_contact_text text .unavailable =
        { success := false, data := none
          message := "Not enough information provided. Please provide more details." } := by
      unfold process_contact_text
      rw [if_pos (by simp [hshort])]
    rw [heq]
    exact ⟨by simp [hshort], fun hc => by simp at hc⟩
  · by_cases hempty : text = ""
    · subst hempty
      exact absurd (by decide) hshort
    · have heq : process_contact_text text .unavailable =
          _basic_text_extraction text := by
        unfold process_contact_text
        rw [if_neg (by simp [hempty, hshort])]
        rfl
      rw [heq]
      unfold _basic_text_extraction
      by_cases hw : (pySplitWs (pyStrip text)).length < 2
      · rw [if_pos hw]
        exact ⟨by simp [hw], fun hc => by simp at hc⟩
      · rw [if_neg hw]
        refine ⟨by simp [hshort, hw], fun _ => ?_⟩
        refine ⟨_, rfl, rfl, rfl, rfl, rfl, rfl, rfl, rfl, rfl, rfl, rfl,
          rfl, rfl, rfl, rfl, rfl, rfl, ?_⟩
        intro w hwmem
        by_cases h3 : 2 < (pySplitWs (pyStrip text)).length
        · simp only [Option.getD_some, if_pos h3]
          exact token_isSubstr text w (List.mem_of_mem_drop hwmem)
        · have hnil : (pySplitWs (pyStrip text)).drop 2 = [] :=
            List.drop_eq_nil_of_le (by omega)
          rw [hnil] at hwmem
          simp at hwmem

/-- C10. In degraded extraction the note is exactly the empty string for a
two-token input and exactly the whole original text — first and last name
tokens included — for three or more tokens
(_basic_text_extraction, newContact.py lines 145-166). -/
theorem C10_basic_extraction_note_exact (text : String) :
    ((pySplitWs (pyStrip text)).length = 2 →
      ∃ ud, (_basic_text_extraction text).data = some ud ∧ ud.note = some "") ∧
    (3 ≤ (pySplitWs (pyStrip text)).length →
      ∃ ud, (_basic_text_extraction text).data = some ud ∧
        ud.note = some text) := by
  constructor
  · intro h2
    unfold _basic_text_extraction
    rw [if_neg (by omega)]
    exact ⟨_, rfl, by simp [h2]⟩
  · intro h3
    unfold _basic_text_extraction
    rw [if_neg (by omega)]
    exact ⟨_, rfl, by
      simp [show 2 < (pySplitWs (pyStrip text)).length by omega]⟩

/-- Counterexample to C3: a parsed service response missing first/last
name does NOT fall back to the whitespace heuristic — it fails the call
outright, even though the heuristic would succeed on the same text
(process_contact_text lines 245-247). -/
theorem C3_counterexample :
    (process_contact_text "John Smith met at conference"
      (.parsed {} none)).success = false ∧
    (process_contact_text "John Smith met at conference"
      (.parsed {} none)).data = none ∧
    (_basic_text_extraction "John Smith met at conference").success = true ∧
    process_contact_text "John Smith met at conference" (.parsed {} none) ≠
      _basic_text_extraction "John Smith met at conference" := by
  decide

/-- C3 amended. When the parsed response lacks (or has falsy) first_name
or last_name, the extraction FAILS with an explanatory message instead of
falling back; the whitespace-heuristic fallback on the original text is
used only when the service is unavailable, returns no content, or returns
JSON that does not parse (process_contact_text, newContact.py lines
234-247). -/
theorem C3_parsed_missing_names_fails (text : String) (core : CoreFields)
    (noteField : Option (Option String))
    (hlen : (text = "" || (pyStrip text).length < 5) = false)
    (hmiss : (core.first_name = none || core.first_name = some "" ||
        core.last_name = none || core.last_name = some "") = true) :
    (process_contact_text text (.parsed core noteField)).success = false ∧
    (process_contact_text text (.parsed core noteField)).data = none ∧
    (process_contact_text text (.parsed core noteField)).message =
      "Could not extract first and last name from the text. Please provide clearer information." ∧
    process_contact_text text .noContent = _basic_text_extraction text ∧
    process_contact_text text .badJSON = _basic_text_extraction text := by
  have hfail : process_contact_text text (.parsed core noteField) =
      { success := false, data := none
        message := "Could not extract first and last name from the text. Please provide clearer information." } := by
    unfold process_contact_text
    rw [if_neg (by simp [hlen])]
    simp only [processBody]
    rw [if_pos hmiss]
  have hnc : process_contact_text text .noContent = _basic_text_extraction text := by
    unfold process_contact_text
    rw [if_neg (by simp [hlen])]
    rfl
  have hbj : process_contact_text text .badJSON = _basic_text_extraction text := by
    unfold process_contact_text
    rw [if_neg (by simp [hlen])]
    rfl
  rw [hfail]
  exact ⟨rfl, rfl, rfl, hnc, hbj⟩

/-- Witness for the amended C3 at a concrete input: the heuristic would
extract John Smith, but the empty parsed response fails the call. -/
theorem C3_parsed_missing_names_fails_witness :
    (process_contact_text "John Smith met at conference"
      (.parsed {} none)).success = false ∧
    (process_contact_text "John Smith met at conference"
      (.parsed {} none)).data = none ∧
    (process_contact_text "John Smith met at conference"
      (.parsed {} none)).message =
      "Could not extract first and last name from the text. Please provide clearer information." ∧
    process_contact_text "John Smith met at conference" .noContent =
      _basic_text_extraction "John Smith met at conference" ∧
    process_contact_text "John Smith met at conference" .badJSON =
      _basic_text_extraction "John Smith met at conference" :=
  C3_parsed_missing_names_fails "John Smith met at conference" {} none
    (by decide) (by decide)

/-! ### Character-level lemmas about the ASCII case maps -/

lemma char_toNat_ofNat (n : Nat) (h : n < 55296) : (Char.ofNat n).toNat = n := by
  have hv : n.isValidChar := Or.inl h
  simp only [Char.ofNat, hv, dite_true, Char.ofNatAux, Char.toNat]
  simp [UInt32.toNat, UInt32.ofNatCore, BitVec.ofNatLt]

lemma toNat_asciiUpperC_of_lower (c : Char) (h : isAsciiLowerC c = true) :
    (asciiUpperC c).toNat = c.toNat - 32 := by
  simp only [isAsciiLowerC, Bool.and_eq_true, decide_eq_true_eq] at h
  simp only [asciiUpperC, isAsciiLowerC]
  rw [if_pos (by simp [h.1, h.2])]
  exact char_toNat_ofNat _ (by omega)

lemma toNat_asciiLowerC_of_upper (c : Char) (h : isAsciiUpperC c = true) :
    (asciiLowerC c).toNat = c.toNat + 32 := by
  simp only [isAsciiUpperC, Bool.and_eq_true, decide_eq_true_eq] at h
  simp only [asciiLowerC, isAsciiUpperC]
  rw [if_pos (by simp [h.1, h.2])]
  exact char_toNat_ofNat _ (by omega)

lemma pyIsSpace_asciiUpperC (c : Char) (h : pyIsSpace c = false) :
    pyIsSpace (asciiUpperC c) = false := by
  by_cases hl : isAsciiLowerC c = true
  · have ht := toNat_asciiUpperC_of_lower c hl
    simp only [isAsciiLowerC, Bool.and_eq_true, decide_eq_true_eq] at hl
    simp only [pyIsSpace, ht, Bool.or_eq_false_iff, decide_eq_false_iff_not]
    omega
  · have : asciiUpperC c = c := by
      simp only [asciiUpperC]
      rw [if_neg (by simpa using hl)]
    rw [this]; exact h

lemma pyIsSpace_asciiLowerC (c : Char) (h : pyIsSpace c = false) :
    pyIsSpace (asciiLowerC c) = false := by
  by_cases hl : isAsciiUpperC c = true
  · have ht := toNat_asciiLowerC_of_upper c hl
    simp only [isAsciiUpperC, Bool.and_eq_true, decide_eq_true_eq] at hl
    simp only [pyIsSpace, ht, Bool.or_eq_false_iff, decide_eq_false_iff_not]
    omega
  · have : asciiLowerC c = c := by
      simp only [asciiLowerC]
      rw [if_neg (by simpa using hl)]
    rw [this]; exact h

/-- After upper-casing, a character that is an ASCII letter is an ASCII
uppercase letter. -/
lemma asciiUpperC_alpha_upper (c : Char)
    (h : isAsciiAlphaC (asciiUpperC c) = true) :
    isAsciiUpperC (asciiUpperC c) = true := by
  by_cases hl : isAsciiLowerC c = true
  · have ht := toNat_asciiUpperC_of_lower c hl
    simp only [isAsciiLowerC, Bool.and_eq_true, decide_eq_true_eq] at hl
    simp only [isAsciiUpperC, ht, Bool.and_eq_true, decide_eq_true_eq]
    omega
  · have hc : asciiUpperC c = c := by
      simp only [asciiUpperC]
      rw [if_neg (by simpa using hl)]
    rw [hc] at h ⊢
    simp only [isAsciiAlphaC, Bool.or_eq_true] at h
    rcases h with h | h
    · exact absurd h hl
    · exact h

/-! ### Tokens of wsTokensL are non-empty and whitespace-free -/

lemma wsTokensL_tokens : ∀ (l t : List Char), t ∈ wsTokensL l →
    t ≠ [] ∧ ∀ c ∈ t, pyIsSpace c = false
  | [], t, ht => by simp [wsTokensL] at ht
  | c :: cs, t, ht => by
    by_cases hc : pyIsSpace c = true
    · rw [wsTokensL_cons_space c cs hc] at ht
      exact wsTokensL_tokens cs t ht
    · have hc' : pyIsSpace c = false := by simpa using hc
      rw [wsTokensL_cons_nonspace cs c hc'] at ht
      rcases List.mem_cons.mp ht with rfl | ht
      · refine ⟨by simp, ?_⟩
        intro x hx
        rcases List.mem_cons.mp hx with rfl | hx
        · exact hc'
        · have := List.mem_takeWhile_imp hx
          simpa using this
      · exact wsTokensL_tokens _ t ht
termination_by l _ _ => l.length
decreasing_by
  · simp only [List.length_cons]; omega
  · simp only [List.length_cons]
    have h := congrArg List.length
      (List.takeWhile_append_dropWhile (fun d => !pyIsSpace d) cs)
    simp only [List.length_append] at h
    omega

/-! ### Joining and re-splitting whitespace-free tokens -/

lemma takeWhile_append_all {α : Type} (p : α → Bool) :
    ∀ (xs ys : List α), (∀ x ∈ xs, p x = true) →
      (xs ++ ys).takeWhile p = xs ++ ys.takeWhile p
  | [], ys, _ => rfl
  | x :: xs, ys, h => by
    have hx := h x (List.mem_cons_self x xs)
    simp only [List.cons_append, List.takeWhile_cons, hx, if_true]
    rw [takeWhile_append_all p xs ys (fun a ha => h a (List.mem_cons_of_mem _ ha))]

lemma dropWhile_append_all {α : Type} (p : α → Bool) :
    ∀ (xs ys : List α), (∀ x ∈ xs, p x = true) →
      (xs ++ ys).dropWhile p = ys.dropWhile p
  | [], ys, _ => rfl
  | x :: xs, ys, h => by
    have hx := h x (List.mem_cons_self x xs)
    simp only [List.cons_append, List.dropWhile_cons, hx, if_true]
    exact dropWhile_append_all p xs ys (fun a ha => h a (List.mem_cons_of_mem _ ha))

lemma dropWhile_head_false {α : Type} (p : α → Bool) :
    ∀ (l : List α) (d : α) (ds : List α), l.dropWhile p = d :: ds → p d = false
  | [], d, ds, h => by simp at h
  | c :: cs, d, ds, h => by
    by_cases hc : p c = true
    · rw [List.dropWhile_cons, if_pos hc] at h
      exact dropWhile_head_false p cs d ds h
    · rw [List.dropWhile_cons, if_neg hc] at h
      obtain ⟨rfl, _⟩ := List.cons.injEq .. ▸ h
      · simpa using hc

/-- Join with a single blank between pieces, at the character level —
mirrors pyJoin " " on the piece strings. -/
def joinCharSp : List (List Char) → List Char
  | [] => []
  | [t] => t
  | t :: rest => t ++ ' ' :: joinCharSp rest

lemma pyJoin_space_data : ∀ ts : List (List Char),
    (pyJoin " " (ts.map (⟨·⟩))).data = joinCharSp ts
  | [] => rfl
  | [_] => rfl
  | t :: t' :: rest => by
    show (String.mk t ++ " " ++ pyJoin " " ((t' :: rest).map (⟨·⟩))).data =
      t ++ ' ' :: joinCharSp (t' :: rest)
    rw [String.data_append, String.data_append, pyJoin_space_data (t' :: rest)]
    simp

/-- Re-splitting a blank-join of non-empty whitespace-free tokens yields
the tokens back. -/
lemma wsTokensL_joinCharSp : ∀ ts : List (List Char),
    (∀ t ∈ ts, t ≠ [] ∧ ∀ c ∈ t, pyIsSpace c = false) →
    wsTokensL (joinCharSp ts) = ts
  | [], _ => rfl
  | [t], h => by
    obtain ⟨hne, hsp⟩ := h t (List.mem_cons_self t [])
    obtain ⟨c, tc, rfl⟩ := List.exists_cons_of_ne_nil hne
    show wsTokensL (c :: tc) = [c :: tc]
    rw [wsTokensL_cons_nonspace tc c (hsp c (List.mem_cons_self c tc))]
    have htk : tc.takeWhile (fun d => !pyIsSpace d) = tc := by
      have := takeWhile_append_all (fun d => !pyIsSpace d) tc []
        (fun x hx => by simp [hsp x (List.mem_cons_of_mem _ hx)])
      simpa using this
    have hdr : tc.dropWhile (fun d => !pyIsSpace d) = [] := by
      have := dropWhile_append_all (fun d => !pyIsSpace d) tc []
        (fun x hx => by simp [hsp x (List.mem_cons_of_mem _ hx)])
      simpa using this
    rw [htk, hdr]
    rfl
  | t :: t' :: rest, h => by
    obtain ⟨hne, hsp⟩ := h t (List.mem_cons_self t _)
    obtain ⟨c, tc, rfl⟩ := List.exists_cons_of_ne_nil hne
    show wsTokensL ((c :: tc) ++ ' ' :: joinCharSp (t' :: rest)) = _
    have hall : ∀ x ∈ tc, (fun d => !pyIsSpace d) x = true := by
      intro x hx; simp [hsp x (List.mem_cons_of_mem _ hx)]
    rw [List.cons_append,
      wsTokensL_cons_nonspace _ c (hsp c (List.mem_cons_self c tc)),
      takeWhile_append_all _ tc _ hall, dropWhile_append_all _ tc _ hall]
    have hsp' : (' ' :: joinCharSp (t' :: rest)).takeWhile
        (fun d => !pyIsSpace d) = [] := by
      simp [List.takeWhile_cons, pyIsSpace]
    have hdr' : (' ' :: joinCharSp (t' :: rest)).dropWhile
        (fun d => !pyIsSpace d) = ' ' :: joinCharSp (t' :: rest) := by
      simp [List.dropWhile_cons, pyIsSpace]
    rw [hsp', hdr', wsTokensL_cons_space ' ' _ (by simp [pyIsSpace]),
      wsTokensL_joinCharSp (t' :: rest) (fun x hx => h x (List.mem_cons_of_mem _ hx))]
    simp

/-- Length of a blank-join of the tokens of `l`, each transformed by a
length-preserving map, never exceeds the length of `l`. -/
lemma joinCharSp_length_le : ∀ (l : List Char) (f : List Char → List Char),
    (∀ t, (f t).length = t.length) →
    (joinCharSp ((wsTokensL l).map f)).length ≤ l.length
  | [], _, _ => by simp [wsTokensL, joinCharSp]
  | c :: cs, f, hf => by
    by_cases hc : pyIsSpace c = true
    · rw [wsTokensL_cons_space c cs hc]
      exact le_trans (joinCharSp_length_le cs f hf) (by simp)
    · have hc' : pyIsSpace c = false := by simpa using hc
      rw [wsTokensL_cons_nonspace cs c hc']
      have hlen := congrArg List.length
        (List.takeWhile_append_dropWhile (fun d => !pyIsSpace d) cs)
      simp only [List.length_append] at hlen
      rcases hdr : cs.dropWhile (fun d => !pyIsSpace d) with _ | ⟨d, dr'⟩
      · simp only [wsTokensL, List.map_cons, List.map_nil, joinCharSp, hf,
          List.length_cons]
        rw [hdr] at hlen
        simp only [List.length_nil] at hlen
        omega
      · have hd : pyIsSpace d = true := by
          have := dropWhile_head_false (fun x => !pyIsSpace x) cs d dr' hdr
          simpa using this
        rw [wsTokensL_cons_space d dr' hd]
        rcases hts : wsTokensL dr' with _ | ⟨x, xs⟩
        · simp only [List.map_cons, List.map_nil, joinCharSp, hf, List.length_cons]
          rw [hdr] at hlen
          simp only [List.length_cons] at hlen
          omega
        · have hrec := joinCharSp_length_le dr' f hf
          rw [hts] at hrec
          simp only [List.map_cons, joinCharSp, List.length_append,
            List.length_cons, hf]
          rw [hdr] at hlen
          simp only [List.length_cons] at hlen
          simp only [List.map_cons] at hrec
          omega
termination_by l _ _ => l.length
decreasing_by
  all_goals simp only [List.length_cons]
  all_goals first
  | omega
  | (have h := congrArg List.length
       (List.takeWhile_append_dropWhile (fun d => !pyIsSpace d) cs);
     simp only [List.length_append] at h;
     rw [hdr] at h;
     simp only [List.length_cons] at h;
     omega)

/-! ### generate_relationship_description (newContact.py lines 296-401) -/

/-- Character-level body of Python's `str.capitalize`: first character
upper-cased, the rest lower-cased (ASCII). -/
def capData : List Char → List Char
  | [] => []
  | c :: cs => asciiUpperC c :: cs.map asciiLowerC

lemma pyCapitalize_mk (t : List Char) : pyCapitalize ⟨t⟩ = ⟨capData t⟩ := by
  cases t <;> rfl

lemma capData_length (t : List Char) : (capData t).length = t.length := by
  cases t <;> simp [capData]

lemma capData_ne_nil (t : List Char) (h : t ≠ []) : capData t ≠ [] := by
  cases t
  · exact absurd rfl h
  · simp [capData]

lemma capData_space_free (t : List Char)
    (h : ∀ c ∈ t, pyIsSpace c = false) :
    ∀ c ∈ capData t, pyIsSpace c = false := by
  cases t with
  | nil => simp [capData]
  | cons c cs =>
    intro x hx
    simp only [capData, List.mem_cons] at hx
    rcases hx with rfl | hx
    · exact pyIsSpace_asciiUpperC c (h c (List.mem_cons_self c cs))
    · obtain ⟨y, hy, rfl⟩ := List.mem_map.mp hx
      exact pyIsSpace_asciiLowerC y (h y (List.mem_cons_of_mem _ hy))

lemma joinCharSp_cons_ne_nil (x : List Char) (xs : List (List Char))
    (h : x ≠ []) : joinCharSp (x :: xs) ≠ [] := by
  cases xs
  · exact h
  · simp only [joinCharSp]
    intro hc
    exact h (List.append_eq_nil.mp hc).1

/-- The characters Python's `relationship.strip('"\x27.,;:')` removes:
double quote, apostrophe, period, comma, semicolon, colon. -/
def punctStripSet : List Char := [Char.ofNat 34, Char.ofNat 39, '.', ',', ';', ':']

/-- The requester's profile row as generate_relationship_description
consumes it: `first_name` / `last_name` are NOT NULL columns, the rest are
read with `.get` and may be null. -/
structure UserInfo where
  first_name : String
  last_name : String
  location : Option String := none
  high_school : Option String := none
  university : Option String := none
  uni_major : Option String := none
  job_title : Option String := none
  current_company : Option String := none
  field_of_interest : Option String := none
deriving Repr, DecidableEq

/-- The user_profile dict (line 323), in insertion order. -/
def profilePairs (u : UserInfo) : List (String × Option String) :=
  [("name", some (pyStrip (u.first_name ++ " " ++ u.last_name))),
   ("location", u.location), ("high_school", u.high_school),
   ("university", u.university), ("uni_major", u.uni_major),
   ("job_title", u.job_title), ("current_company", u.current_company),
   ("field_of_interest", u.field_of_interest)]

/-- The profile lines kept by `if value` (truthy: neither null nor ""). -/
def profileLines (u : UserInfo) : List String :=
  (profilePairs u).filterMap (fun kv =>
    match kv.2 with
    | some v => if v ≠ "" then some (kv.1 ++ ": " ++ v) else none
    | none => none)

/-- Sanitisation pipeline applied to the service's reply (lines 381-396):
strip whitespace, strip surrounding quotes/punctuation, truncate to 50
characters, then return it as-is when every word already starts with an
uppercase character, else capitalize each word and re-join. -/
def relTrunc (resp : String) : String :=
  let rel0 := pyStripChars punctStripSet (pyStrip resp)
  if 50 < rel0.length then pyTake 50 rel0 else rel0

def sanitizeResponse (resp : String) : String :=
  let rel1 := relTrunc resp
  let words := pySplitWs rel1
  if words = [] then "Contact"
  else
    let rel2 :=
      if words.all (fun w => isAsciiUpperC (w.data.headD ' ')) then rel1
      else pyJoin " " (words.map pyCapitalize)
    if rel2 ≠ "" then rel2 else "Contact"

/-- newContact.generate_relationship_description: the default label
"Contact" when the service is unavailable, the requester row is missing,
the profile text is empty, or the call yields no content; otherwise the
sanitised response.  The prompt the source builds from the contact text
and tags only influences the service's reply, which is the explicit
`response` input here. -/
def generate_relationship_description (available : Bool)
    (user_info : Option UserInfo) (response : Option String) : String :=
  if !available then "Contact"
  else
    match user_info with
    | none => "Contact"
    | some u =>
      if pyStrip (pyJoin "\n" (profileLines u)) = "" then "Contact"
      else
        match response with
        | none => "Contact"
        | some resp => sanitizeResponse resp

lemma relTrunc_le (resp : String) : (relTrunc resp).length ≤ 50 := by
  show (if 50 < (pyStripChars punctStripSet (pyStrip resp)).length then
      pyTake 50 (pyStripChars punctStripSet (pyStrip resp))
    else pyStripChars punctStripSet (pyStrip resp)).length ≤ 50
  split
  · show (pyTake 50 _).length ≤ 50
    simp only [pyTake, String.length, List.length_take]
    omega
  · omega

/-- "Contact" satisfies every guarantee of the amended C7. -/
lemma contact_props :
    ("Contact" : String).length ≤ 50 ∧ ("Contact" : String) ≠ "" ∧
    ∀ w ∈ pySplitWs "Contact", isAsciiAlphaC (w.data.headD ' ') = true →
      isAsciiUpperC (w.data.headD ' ') = true := by
  decide

lemma sanitizeResponse_props (resp : String) :
    (sanitizeResponse resp).length ≤ 50 ∧
    sanitizeResponse resp ≠ "" ∧
    (∀ w ∈ pySplitWs (sanitizeResponse resp),
      isAsciiAlphaC (w.data.headD ' ') = true →
      isAsciiUpperC (w.data.headD ' ') = true) := by
  have h50 : (relTrunc resp).length ≤ 50 := relTrunc_le resp
  by_cases hw : pySplitWs (relTrunc resp) = []
  · have hres : sanitizeResponse resp = "Contact" := by
      unfold sanitizeResponse
      rw [if_pos hw]
    rw [hres]
    exact contact_props
  · by_cases hb : (pySplitWs (relTrunc resp)).all
        (fun w => isAsciiUpperC (w.data.headD ' ')) = true
    · have hne : relTrunc resp ≠ "" := by
        intro h0
        apply hw
        rw [h0]
        rfl
      have hres : sanitizeResponse resp = relTrunc resp := by
        unfold sanitizeResponse
        rw [if_neg hw]
        simp only [hb, if_true]
        rw [if_pos hne]
      rw [hres]
      refine ⟨h50, hne, ?_⟩
      intro w hwmem _
      have := List.all_eq_true.mp hb w hwmem
      simpa using this
    · -- capitalize-and-rejoin branch
      have hmap : (pySplitWs (relTrunc resp)).map pyCapitalize =
          ((wsTokensL (relTrunc resp).data).map capData).map (⟨·⟩) := by
        simp only [pySplitWs, List.map_map]
        have : (fun t => pyCapitalize (String.mk t)) =
            fun t : List Char => String.mk (capData t) := funext pyCapitalize_mk
        simp only [Function.comp_def]
        rw [this]
      have hdata : (pyJoin " " ((pySplitWs (relTrunc resp)).map pyCapitalize)).data =
          joinCharSp ((wsTokensL (relTrunc resp).data).map capData) := by
        rw [hmap]
        exact pyJoin_space_data _
      have htoksne : wsTokensL (relTrunc resp).data ≠ [] := by
        intro h0
        apply hw
        simp [pySplitWs, h0]
      have hne2 : pyJoin " " ((pySplitWs (relTrunc resp)).map pyCapitalize) ≠ "" := by
        obtain ⟨t0, ts0, ht0⟩ := List.exists_cons_of_ne_nil htoksne
        have ht0mem : t0 ∈ wsTokensL (relTrunc resp).data := by
          rw [ht0]; exact List.mem_cons_self _ _
        have ht0ne := (wsTokensL_tokens _ t0 ht0mem).1
        intro h0
        have hd0 := congrArg String.data h0
        rw [hdata, ht0] at hd0
        exact joinCharSp_cons_ne_nil (capData t0) _ (capData_ne_nil t0 ht0ne)
          (by simpa using hd0)
      have hres : sanitizeResponse resp =
          pyJoin " " ((pySplitWs (relTrunc resp)).map pyCapitalize) := by
        unfold sanitizeResponse
        rw [if_neg hw]
        simp only [hb, Bool.false_eq_true, if_false]
        rw [if_pos hne2]
      rw [hres]
      refine ⟨?_, hne2, ?_⟩
      · show (pyJoin " " ((pySplitWs (relTrunc resp)).map pyCapitalize)).length ≤ 50
        have : (pyJoin " " ((pySplitWs (relTrunc resp)).map pyCapitalize)).length =
            (joinCharSp ((wsTokensL (relTrunc resp).data).map capData)).length := by
          simp only [String.length]
          rw [hdata]
        rw [this]
        exact le_trans (joinCharSp_length_le (relTrunc resp).data capData capData_length) h50
      · intro w hwmem halpha
        have hsplit : pySplitWs (pyJoin " " ((pySplitWs (relTrunc resp)).map pyCapitalize)) =
            ((wsTokensL (relTrunc resp).data).map capData).map (⟨·⟩) := by
          have hgen : pySplitWs (pyJoin " " ((pySplitWs (relTrunc resp)).map pyCapitalize)) =
              (wsTokensL (pyJoin " "
                ((pySplitWs (relTrunc resp)).map pyCapitalize)).data).map (⟨·⟩) := rfl
          rw [hgen, hdata, wsTokensL_joinCharSp]
          intro t ht
          obtain ⟨t', ht', rfl⟩ := List.mem_map.mp ht
          have hsrc := wsTokensL_tokens _ t' ht'
          exact ⟨capData_ne_nil t' hsrc.1, capData_space_free t' hsrc.2⟩
        rw [hsplit] at hwmem
        obtain ⟨tc, htc, rfl⟩ := List.mem_map.mp hwmem
        obtain ⟨t', ht', rfl⟩ := List.mem_map.mp htc
        have hsrc := wsTokensL_tokens _ t' ht'
        obtain ⟨c, cs, rfl⟩ := List.exists_cons_of_ne_nil hsrc.1
        have hhead : (String.mk (capData (c :: cs))).data.headD ' ' = asciiUpperC c := rfl
        rw [hhead] at halpha ⊢
        exact asciiUpperC_alpha_upper c halpha

/-- C7 amended. Relationship-label generation is total (never fails the
pipeline): it always returns a string of at most 50 characters in which
every word that begins with an ASCII letter begins with an UPPERCASE
letter (a word beginning with a digit or symbol is left as Python's
str.capitalize produces it, which may lower-case later letters), and it
returns the fixed label "Contact" whenever the service is unavailable,
the requester row is missing or has an empty profile, or the service
yields no content (generate_relationship_description, newContact.py lines
296-401). -/
theorem C7_relationship_description_amended (available : Bool)
    (uinfo : Option UserInfo) (resp : Option String) :
    (generate_relationship_description available uinfo resp).length ≤ 50 ∧
    generate_relationship_description available uinfo resp ≠ "" ∧
    (∀ w ∈ pySplitWs (generate_relationship_description available uinfo resp),
      isAsciiAlphaC (w.data.headD ' ') = true →
      isAsciiUpperC (w.data.headD ' ') = true) ∧
    ((available = false ∨ uinfo = none ∨ resp = none) →
      generate_relationship_description available uinfo resp = "Contact") ∧
    (∀ u, uinfo = some u → pyStrip (pyJoin "\n" (profileLines u)) = "" →
      generate_relationship_description available uinfo resp = "Contact") := by
  rcases havail : available with _ | _
  · exact ⟨contact_props.1, contact_props.2.1, contact_props.2.2,
      fun _ => rfl, fun _ _ _ => rfl⟩
  · rcases huinfo : uinfo with _ | u
    · exact ⟨contact_props.1, contact_props.2.1, contact_props.2.2,
        fun _ => rfl, fun u hu => by simp at hu⟩
    · by_cases hprof : pyStrip (pyJoin "\n" (profileLines u)) = ""
      · have hres : generate_relationship_description true (some u) resp =
            "Contact" := by
          unfold generate_relationship_description
          simp only [Bool.not_true, Bool.false_eq_true, if_false]
          rw [if_pos hprof]
        rw [hres]
        exact ⟨contact_props.1, contact_props.2.1, contact_props.2.2,
          fun _ => rfl, fun _ _ _ => rfl⟩
      · rcases hresp : resp with _ | s
        · have hres : generate_relationship_description true (some u) none =
              "Contact" := by
            unfold generate_relationship_description
            simp only [Bool.not_true, Bool.false_eq_true, if_false]
            rw [if_neg hprof]
          rw [hres]
          refine ⟨contact_props.1, contact_props.2.1, contact_props.2.2,
            fun _ => rfl, ?_⟩
          intro u' hu' hp'
          obtain rfl : u = u' := by simpa using hu'
          exact absurd hp' hprof
        · have hres : generate_relationship_description true (some u) (some s) =
              sanitizeResponse s := by
            unfold generate_relationship_description
            simp only [Bool.not_true, Bool.false_eq_true, if_false]
            rw [if_neg hprof]
          rw [hres]
          have hp := sanitizeResponse_props s
          refine ⟨hp.1, hp.2.1, hp.2.2, ?_, ?_⟩
          · intro hc
            rcases hc with hc | hc | hc <;> simp at hc
          · intro u' hu' hp'
            obtain rfl : u = u' := by simpa using hu'
            exact absurd hp' hprof

/-- The requester profile used in the C7 counterexample. -/
def uinfoC7 : UserInfo := { first_name := "Dan", last_name := "T" }

/-- Counterexample to C7 as stated: on the service reply "3D Modeling
Buddy" the generated label is "3d Modeling Buddy" — the word "3d" does
not have an uppercase first letter (its only letter, d, is lowercase), so
not every word of the result is Title-Cased. -/
theorem C7_counterexample :
    generate_relationship_description true (some uinfoC7)
      (some "3D Modeling Buddy") = "3d Modeling Buddy" ∧
    "3d" ∈ pySplitWs (generate_relationship_description true (some uinfoC7)
      (some "3D Modeling Buddy")) ∧
    isAsciiUpperC (("3d" : String).data.headD ' ') = false ∧
    (("3d" : String).data.filter isAsciiAlphaC).headD ' ' = 'd' ∧
    isAsciiUpperC 'd' = false := by
  decide

/-! ### api.py /contacts/create — the persistence stage (lines 556-624)

After extraction and label generation, the endpoint creates the Person,
then the edge, then (only on edge success, and only when explicit tags
were supplied) updates the REQUESTER's recent-tags cache, and returns 201
with `connection_error = not connection_success`; a failing edge insert is
not an error and does not roll the Person back. -/

/-- DatabaseManager.add_connection (lines 415-446): one INSERT into
`relationships`; a constraint violation — duplicate (user_id, contact_id)
pair or a missing endpoint — raises, is caught, rolled back, and returns
False. -/
def add_connection (db : DB) (user_id contact_id : Nat)
    (relationship_description : String) (notes : Option String)
    (tags : Option String) (what_they_are_working_on : Option String) :
    DB × Bool :=
  if edgeExists db user_id contact_id || !personPresent db user_id ||
      !personPresent db contact_id then (db, false)
  else
    ({ db with relationships := db.relationships ++
        [{ user_id := user_id, contact_id := contact_id
           relationship_description := some relationship_description
           notes := notes, tags := tags
           what_they_are_working_on := what_they_are_working_on }] },
     true)

/-- The dict handed from process_contact_text to add_user: USER_FIELDS
values under their keys; `interests` is not a USER_FIELDS key, so
add_user's completion loop nulls it; `birthday`, `field_of_interest` and
`note` are extra keys the INSERT's named placeholders ignore;
username/password/recent_tags are absent. -/
def toNewUserFields (ud : UserData) : NewUserFields :=
  { first_name := ud.core.first_name
    last_name := ud.core.last_name
    email := ud.core.email
    phone_number := ud.core.phone_number
    location := ud.core.location
    university := ud.core.university
    interests := none
    high_school := ud.core.high_school
    gender := ud.core.gender
    ethnicity := ud.core.ethnicity
    uni_major := ud.core.uni_major
    job_title := ud.core.job_title
    current_company := ud.core.current_company
    profile_image_url := ud.core.profile_image_url
    linkedin_url := ud.core.linkedin_url }

/-- Fault injection for the edge INSERT: `.insertFails` models a transient
store failure inside add_connection (caught there, returning False). -/
inductive ConnFault where
  | ok
  | insertFails
deriving Repr, DecidableEq

/-- The JSON body the endpoint answers with (plus HTTP status). -/
structure ContactResponse where
  status : Nat
  success : Bool
  connection_error : Bool
  user_id : Option Nat
deriving Repr, DecidableEq

/-- The edge-insert attempt of the endpoint, under fault injection. -/
def connAttempt (db1 : DB) (uid nid : Nat) (rd : String)
    (note : Option String) (ctags : Option String) : ConnFault → DB × Bool
  | .insertFails => (db1, false)
  | .ok => add_connection db1 uid nid rd note ctags none

/-- Endpoint behaviour after a successful add_user returned `nid`:
attempt the edge; on success and with non-empty custom tags, update the
requester's recent tags; answer 201 with the degraded-link flag. -/
def create_contact_after (db1 : DB) (uid : Nat) (ud : UserData)
    (rd : String) (ctags : Option String) (custom : List String)
    (fault : ConnFault) (nid : Nat) : DB × ContactResponse :=
  let res := connAttempt db1 uid nid rd ud.note ctags fault
  let db3 :=
    if res.2 then
      if custom ≠ [] then
        (update_user_recent_tags res.1 uid custom MAX_RECENT_TAGS).1
      else res.1
    else res.1
  (db3, { status := 201, success := true, connection_error := !res.2
          user_id := some nid })

/-- The whole persistence stage: add_user (500 on its exception — the
catch at api.py line 619), then `create_contact_after`. -/
def create_contact_persist (db : DB) (uid : Nat) (ud : UserData)
    (rd : String) (ctags : Option String) (custom : List String)
    (fault : ConnFault) : DB × ContactResponse :=
  match add_user db (toNewUserFields ud) with
  | (db', none) =>
    (db', { status := 500, success := false, connection_error := false
            user_id := none })
  | (db1, some nid) => create_contact_after db1 uid ud rd ctags custom fault nid

lemma create_contact_persist_eq_after (db : DB) (uid : Nat) (ud : UserData)
    (rd : String) (ctags : Option String) (custom : List String)
    (fault : ConnFault) (nid : Nat)
    (h : (add_user db (toNewUserFields ud)).2 = some nid) :
    create_contact_persist db uid ud rd ctags custom fault =
      create_contact_after (add_user db (toNewUserFields ud)).1 uid ud rd
        ctags custom fault nid := by
  unfold create_contact_persist
  rw [show add_user db (toNewUserFields ud) =
      ((add_user db (toNewUserFields ud)).1, some nid) from by
    rw [← h]]

/-- On success, add_user appends exactly one row carrying the fresh id. -/
lemma add_user_state (db : DB) (u : NewUserFields)
    (hff : (u.first_name = none || u.last_name = none) = false) :
    (add_user db u).2 = some (freshId db) ∧
    ∃ row : PersonRow, row.id = freshId db ∧
      (add_user db u).1.people = db.people ++ [row] := by
  refine ⟨by unfold add_user; rw [if_neg (by simp [hff])], ?_⟩
  refine ⟨{ id := freshId db
            first_name := u.first_name
            last_name := u.last_name
            email := u.email
            phone_number := u.phone_number
            location := u.location
            university := u.university
            interests := u.interests
            high_school := u.high_school
            gender := u.gender
            ethnicity := u.ethnicity
            uni_major := u.uni_major
            job_title := u.job_title
            current_company := u.current_company
            profile_image_url := u.profile_image_url
            linkedin_url := u.linkedin_url
            recent_tags := some (u.recent_tags.getD DEFAULT_TAGS) }, rfl, ?_⟩
  unfold add_user
  rw [if_neg (by simp [hff])]
  simp only
  rcases u.username with _ | un <;> rcases u.password with _ | pw <;>
    simp only [people_add_user_login]
  split
  · rw [people_add_user_login]
  · rfl

/-- add_connection never touches the `people` table. -/
lemma people_add_connection (db : DB) (a b : Nat) (rd : String)
    (n t w : Option String) : (add_connection db a b rd n t w).1.people = db.people := by
  unfold add_connection
  split <;> rfl

/-- add_connection never touches anyone's recent-tags column. -/
lemma recentTagsStored_add_connection (db : DB) (a b : Nat) (rd : String)
    (n t w : Option String) (x : Nat) :
    recentTagsStored (add_connection db a b rd n t w).1 x =
      recentTagsStored db x := by
  unfold add_connection
  split <;> rfl

/-- The serialized value update_user_recent_tags stores. -/
def updTagsValue (db : DB) (uid : Nat) (new_tags : List String)
    (max_tags : Nat) : Option String :=
  let current := get_user_recent_tags db uid
  let updated := new_tags.foldl addUniqueTag []
  let updated := current.foldl addUniqueTag updated
  let updated := updated.take max_tags
  if updated = [] then none else some (pyJoin "," updated)

lemma update_user_recent_tags_eq (db : DB) (uid : Nat)
    (new_tags : List String) (max_tags : Nat) :
    update_user_recent_tags db uid new_tags max_tags =
      (if personPresent db uid then
        (setRecentTags db uid (updTagsValue db uid new_tags max_tags), true)
      else (db, false)) := rfl

/-- The tag UPDATE leaves every other person's recent-tags column alone. -/
lemma recentTagsStored_setRecentTags_other (db : DB) (uid : Nat)
    (v : Option String) (x : Nat) (h : x ≠ uid) :
    recentTagsStored (setRecentTags db uid v) x = recentTagsStored db x := by
  simp only [recentTagsStored, findPerson, setRecentTags]
  induction db.people with
  | nil => rfl
  | cons p ps ih =>
    by_cases hp : p.id = uid
    · have hux : decide (uid = x) = false := by
        simp only [decide_eq_false_iff_not]
        exact fun hc => h hc.symm
      simp only [List.map_cons, List.find?_cons, hp, if_true, hux]
      exact ih
    · by_cases hx : p.id = x
      · simp [List.find?_cons, hp, hx, h]
      · have hxd : decide (p.id = x) = false := by simp [hx]
        simp only [List.map_cons, List.find?_cons, hp, if_false, hxd]
        exact ih

/-- C6. When Person creation succeeds: a failing edge insert still yields
201 with success = true, the degraded-link flag set, the created Person
kept and nothing rolled back; and in a clean run the degraded flag
mirrors add_connection's outcome, while the recent-tags cache written is
the REQUESTER's, written exactly when the edge was inserted and explicit
tags were supplied — the new contact's cache is untouched by it
(create_contact, api.py lines 556-624). -/
theorem C6_create_contact_link_degraded (db : DB) (uid : Nat)
    (ud : UserData) (rd : String) (ctags : Option String)
    (custom : List String)
    (hok : (add_user db (toNewUserFields ud)).2 = some (freshId db))
    (hreq : personPresent db uid = true) :
    (create_contact_persist db uid ud rd ctags custom .insertFails).2.status = 201 ∧
    (create_contact_persist db uid ud rd ctags custom .insertFails).2.success = true ∧
    (create_contact_persist db uid ud rd ctags custom .insertFails).2.connection_error = true ∧
    (create_contact_persist db uid ud rd ctags custom .insertFails).2.user_id =
      some (freshId db) ∧
    (create_contact_persist db uid ud rd ctags custom .insertFails).1 =
      (add_user db (toNewUserFields ud)).1 ∧
    personPresent (create_contact_persist db uid ud rd ctags custom .insertFails).1
      (freshId db) = true ∧
    ((add_connection (add_user db (toNewUserFields ud)).1 uid (freshId db) rd
        ud.note ctags none).2 = false →
      (create_contact_persist db uid ud rd ctags custom .ok).2.connection_error = true ∧
      (create_contact_persist db uid ud rd ctags custom .ok).1 =
        (add_connection (add_user db (toNewUserFields ud)).1 uid (freshId db) rd
          ud.note ctags none).1) ∧
    ((add_connection (add_user db (toNewUserFields ud)).1 uid (freshId db) rd
        ud.note ctags none).2 = true →
      (create_contact_persist db uid ud rd ctags custom .ok).2.connection_error = false ∧
      (custom = [] →
        (create_contact_persist db uid ud rd ctags custom .ok).1 =
          (add_connection (add_user db (toNewUserFields ud)).1 uid (freshId db) rd
            ud.note ctags none).1) ∧
      (custom ≠ [] →
        (create_contact_persist db uid ud rd ctags custom .ok).1 =
          (update_user_recent_tags
            (add_connection (add_user db (toNewUserFields ud)).1 uid (freshId db) rd
              ud.note ctags none).1 uid custom MAX_RECENT_TAGS).1 ∧
        recentTagsStored (create_contact_persist db uid ud rd ctags custom .ok).1
          (freshId db) =
        recentTagsStored
          (add_connection (add_user db (toNewUserFields ud)).1 uid (freshId db) rd
            ud.note ctags none).1 (freshId db))) := by
  have hff : ((toNewUserFields ud).first_name = none ||
      (toNewUserFields ud).last_name = none) = false := by
    by_cases h : ((toNewUserFields ud).first_name = none ||
        (toNewUserFields ud).last_name = none) = true
    · have : (add_user db (toNewUserFields ud)).2 = none := by
        unfold add_user; rw [if_pos h]
      rw [this] at hok
      simp at hok
    · simpa using h
  obtain ⟨_, row, hrowid, hpeople⟩ := add_user_state db (toNewUserFields ud) hff
  have hpresent : personPresent (add_user db (toNewUserFields ud)).1 (freshId db) = true := by
    simp only [personPresent, hpeople, List.any_append, List.any_cons, List.any_nil,
      Bool.or_eq_true]
    right
    simp [hrowid]
  have hpresent_uid : personPresent (add_user db (toNewUserFields ud)).1 uid = true := by
    simp only [personPresent, hpeople, List.any_append, Bool.or_eq_true]
    left
    exact hreq
  have hne_uid : freshId db ≠ uid := by
    intro hc
    have := freshId_not_present db
    rw [hc] at this
    rw [this] at hreq
    simp at hreq
  have hfail := create_contact_persist_eq_after db uid ud rd ctags custom
    .insertFails (freshId db) hok
  have hokrun := create_contact_persist_eq_after db uid ud rd ctags custom
    .ok (freshId db) hok
  refine ⟨?_, ?_, ?_, ?_, ?_, ?_, ?_, ?_⟩
  · rw [hfail]; rfl
  · rw [hfail]; rfl
  · rw [hfail]; rfl
  · rw [hfail]; rfl
  · rw [hfail]; rfl
  · rw [hfail]
    show personPresent (add_user db (toNewUserFields ud)).1 (freshId db) = true
    exact hpresent
  · intro hcf
    rw [hokrun]
    unfold create_contact_after
    simp only [connAttempt, hcf]
    exact ⟨rfl, rfl⟩
  · intro hct
    rw [hokrun]
    unfold create_contact_after
    simp only [connAttempt, hct, if_true]
    refine ⟨rfl, ?_, ?_⟩
    · intro hc
      simp [hc]
    · intro hc
      rw [if_pos hc]
      refine ⟨rfl, ?_⟩
      have hpr : personPresent
          (add_connection (add_user db (toNewUserFields ud)).1 uid (freshId db) rd
            ud.note ctags none).1 uid = true := by
        simp only [personPresent, people_add_connection]
        exact hpresent_uid
      rw [update_user_recent_tags_eq, if_pos hpr]
      exact recentTagsStored_setRecentTags_other _ uid _ (freshId db) hne_uid

/-- Concrete store for the C6 witness: person 1 is the requester. -/
def dbC6 : DB :=
  { people := [{ id := 1, first_name := some "A", last_name := some "B" }] }

/-- Concrete extracted contact for the C6 witness. -/
def udC6 : UserData :=
  { core := { first_name := some "New", last_name := some "Guy" }
    note := some "met at a party" }

/-- Witness for C6 at a concrete input: with the edge insert failing, the
endpoint still reports success with the degraded-link flag, and the new
contact (id 2) exists. -/
theorem C6_create_contact_link_degraded_witness :
    (create_contact_persist dbC6 1 udC6 "Friend" (some "x") ["x"]
      .insertFails).2.success = true ∧
    (create_contact_persist dbC6 1 udC6 "Friend" (some "x") ["x"]
      .insertFails).2.connection_error = true ∧
    personPresent (create_contact_persist dbC6 1 udC6 "Friend" (some "x") ["x"]
      .insertFails).1 2 = true := by
  have h := C6_create_contact_link_degraded dbC6 1 udC6 "Friend" (some "x")
    ["x"] (by decide) (by decide)
  exact ⟨h.2.1, h.2.2.1, h.2.2.2.2.2.1⟩

end Nexus
